import Mathlib

/-!
Verification of the UOCAVA deadline data-viz script (src/script.js).

The script loads a CSV of per-state ballot deadlines, parses dates (with the
sentinel "N/A" standing for null), sorts by recommended mail date with nulls
last, builds a time scale and a band scale, renders line and dot marks, and
re-filters / re-renders on radio-button changes.

Dates are modelled as day numbers (`Int`, days since the civil epoch
1970-01-01); `toDays` converts a Gregorian calendar date to its day number so
the concrete examples use real calendar dates.  Mutable page state (the DOM,
the scale domains, the filter flags) is modelled by explicit state passing.
-/

namespace UocavaViz

/-- Gregorian calendar date → days since 1970-01-01 (civil-from-days
algorithm, valid for the positive years used here). -/
def toDays (y m d : Int) : Int :=
  let y2 : Int := if m ≤ 2 then y - 1 else y
  let era : Int := (if 0 ≤ y2 then y2 else y2 - 399) / 400
  let yoe : Int := y2 - era * 400
  let mp : Int := (m + 9) % 12
  let doy : Int := (153 * mp + 2) / 5 + d - 1
  let doe : Int := yoe * 365 + yoe / 4 - yoe / 100 + doy
  era * 146097 + doe - 719468

/-- One parsed CSV row (the object literal returned by the row accessor at
src/script.js lines 31-37).  Dates are day numbers; a `none` date models the
JS `null` produced for the "N/A" sentinel or a failed parse. -/
structure Rec where
  state : String
  recommended_mail_date : Option Int
  ballot_postmark_deadline : Option Int
  ballot_receipt_deadline : Option Int
  return_methods : String
deriving Repr, DecidableEq

/-- The mutable filter flags object (src/script.js lines 17-21). -/
structure Filters where
  all : Bool
  post : Bool
  postElectronic : Bool
deriving Repr, DecidableEq

/-- The initial value of `filters` (src/script.js lines 17-21): note the
source initializes all three flags to `true`. -/
def initialFilters : Filters := { all := true, post := true, postElectronic := true }

/-- The predicate passed to `data.filter` inside `applyFilters`
(src/script.js lines 119-129): fixed priority order all → post →
postElectronic → false, with exact string comparison. -/
def filterPred (f : Filters) (d : Rec) : Bool :=
  if f.all then true
  else if f.post then d.return_methods == "Post"
  else if f.postElectronic then d.return_methods == "Post, Electronic"
  else false

/-- The filtered subset computed by `applyFilters` (src/script.js line 119). -/
def applyFiltersData (f : Filters) (data : List Rec) : List Rec :=
  data.filter (filterPred f)

/-- The `#post` change handler (src/script.js lines 237-244): when the radio
is checked it sets exactly the `post` flag; the redraw invocation itself is
modelled separately. -/
def onPostChange (checked : Bool) (f : Filters) : Filters :=
  if checked then { all := false, post := true, postElectronic := false } else f

/-- The `#postElectronic` change handler (src/script.js lines 246-253). -/
def onPostElectronicChange (checked : Bool) (f : Filters) : Filters :=
  if checked then { all := false, post := false, postElectronic := true } else f

/-- The `#all` change handler (src/script.js lines 254-261). -/
def onAllChange (checked : Bool) (f : Filters) : Filters :=
  if checked then { all := true, post := false, postElectronic := false } else f

/-- Spec-side predicate: exactly one of the three filter flags is true. -/
def exactlyOneFlag (f : Filters) : Prop :=
  (f.all = true ∧ f.post = false ∧ f.postElectronic = false) ∨
  (f.all = false ∧ f.post = true ∧ f.postElectronic = false) ∨
  (f.all = false ∧ f.post = false ∧ f.postElectronic = true)

instance (f : Filters) : Decidable (exactlyOneFlag f) := by
  unfold exactlyOneFlag
  infer_instance

/-- A small concrete dataset used in witnesses.  `return_methods` values
include an exact "Post", a leading-space " Post", a lowercase "post" and a
"Post, Electronic" row, so exact-match filtering is observable. -/
def sampleData : List Rec :=
  [ { state := "Georgia", recommended_mail_date := some (toDays 2024 9 15),
      ballot_postmark_deadline := none,
      ballot_receipt_deadline := some (toDays 2024 11 5),
      return_methods := "Post" },
    { state := "Texas", recommended_mail_date := none,
      ballot_postmark_deadline := some (toDays 2024 11 4),
      ballot_receipt_deadline := some (toDays 2024 11 6),
      return_methods := " Post" },
    { state := "Wisconsin", recommended_mail_date := some (toDays 2024 10 1),
      ballot_postmark_deadline := none,
      ballot_receipt_deadline := none,
      return_methods := "post" },
    { state := "Montana", recommended_mail_date := none,
      ballot_postmark_deadline := none,
      ballot_receipt_deadline := some (toDays 2024 11 7),
      return_methods := "Post, Electronic" } ]

/-- C1.  The filter engine follows the fixed priority order: `all` set ⇒ the
whole collection unchanged; else `post` set ⇒ exactly the records whose
`return_methods` equals "Post" (exact string equality); else `postElectronic`
set ⇒ exactly those equal to "Post, Electronic"; else the empty list.
Additionally, selecting `post` then `all` via the change handlers yields the
full collection. -/
theorem applyFilters_priority_order (f : Filters) (data : List Rec) :
    (f.all = true → applyFiltersData f data = data) ∧
    (f.all = false → f.post = true →
      ∀ d : Rec, d ∈ applyFiltersData f data ↔ d ∈ data ∧ d.return_methods = "Post") ∧
    (f.all = false → f.post = false → f.postElectronic = true →
      ∀ d : Rec, d ∈ applyFiltersData f data ↔
        d ∈ data ∧ d.return_methods = "Post, Electronic") ∧
    (f.all = false → f.post = false → f.postElectronic = false →
      applyFiltersData f data = []) ∧
    (applyFiltersData (onAllChange true (onPostChange true f)) data = data) := by
  refine ⟨?_, ?_, ?_, ?_, ?_⟩
  · intro hall
    simp [applyFiltersData, filterPred, hall]
  · intro hall hpost d
    simp [applyFiltersData, filterPred, hall, hpost, List.mem_filter]
  · intro hall hpost hpe d
    simp [applyFiltersData, filterPred, hall, hpost, hpe, List.mem_filter]
  · intro hall hpost hpe
    simp [applyFiltersData, filterPred, hall, hpost, hpe]
  · simp [applyFiltersData, filterPred, onAllChange, onPostChange]

/-- C1 witness: on the concrete sample, with only `post` selected, the exact
"Post" row is kept while the " Post" (leading space) and "post" (lowercase)
rows are excluded, and selecting post-then-all restores the whole sample. -/
theorem applyFilters_priority_order_witness :
    (sampleData.get ⟨0, by decide⟩ ∈
        applyFiltersData { all := false, post := true, postElectronic := false } sampleData) ∧
    (sampleData.get ⟨1, by decide⟩ ∉
        applyFiltersData { all := false, post := true, postElectronic := false } sampleData) ∧
    (sampleData.get ⟨2, by decide⟩ ∉
        applyFiltersData { all := false, post := true, postElectronic := false } sampleData) ∧
    applyFiltersData
      (onAllChange true (onPostChange true
        { all := false, post := true, postElectronic := false })) sampleData = sampleData := by
  have h := applyFilters_priority_order
    { all := false, post := true, postElectronic := false } sampleData
  refine ⟨?_, ?_, ?_, h.2.2.2.2⟩
  · exact (h.2.1 rfl rfl _).mpr ⟨by decide, by decide⟩
  · intro hmem
    have := (h.2.1 rfl rfl _).mp hmem
    exact absurd this.2 (by decide)
  · intro hmem
    have := (h.2.1 rfl rfl _).mp hmem
    exact absurd this.2 (by decide)

/-- C2 counterexample: the source initializes `filters` with all three flags
`true` (src/script.js lines 17-21), so at start-up the exactly-one-true
property fails and in particular `post` is not initially `false`. -/
theorem initialFilters_not_exclusive :
    initialFilters.post = true ∧ ¬ exactlyOneFlag initialFilters := by
  constructor
  · rfl
  · decide

/-- C2 (amended).  The `filters` object is initialized with all three flags
`true`, so the exactly-one-true property does not hold initially; each change
handler, when its input is checked, establishes exactly one true flag *from
any prior state* — in particular from the all-true initial one, so after the
first checked selection event exactly one flag is true — and when unchecked
leaves the state unchanged, hence every handler also preserves the
exactly-one-true property once it holds. -/
theorem filters_handlers_preserve_exclusivity (f : Filters) (c : Bool) :
    initialFilters = { all := true, post := true, postElectronic := true } ∧
    exactlyOneFlag (onPostChange true f) ∧
    exactlyOneFlag (onPostElectronicChange true f) ∧
    exactlyOneFlag (onAllChange true f) ∧
    (exactlyOneFlag f → exactlyOneFlag (onPostChange c f)) ∧
    (exactlyOneFlag f → exactlyOneFlag (onPostElectronicChange c f)) ∧
    (exactlyOneFlag f → exactlyOneFlag (onAllChange c f)) := by
  refine ⟨rfl, by simp [onPostChange, exactlyOneFlag],
    by simp [onPostElectronicChange, exactlyOneFlag],
    by simp [onAllChange, exactlyOneFlag], ?_, ?_, ?_⟩ <;>
    intro h <;>
    cases c <;>
    first
      | exact h
      | simp [onPostChange, onPostElectronicChange, onAllChange, exactlyOneFlag]

/-- C2 witness: from the all-true initial state, a checked `#all` or `#post`
event establishes exactly one true flag, and from the resulting exclusive
state an unchecked event preserves exclusivity. -/
theorem filters_handlers_preserve_exclusivity_witness :
    ¬ exactlyOneFlag initialFilters ∧
    exactlyOneFlag (onAllChange true initialFilters) ∧
    exactlyOneFlag (onPostChange true initialFilters) ∧
    exactlyOneFlag (onPostChange false (onAllChange true initialFilters)) := by
  have h := filters_handlers_preserve_exclusivity initialFilters true
  have h2 := filters_handlers_preserve_exclusivity (onAllChange true initialFilters) false
  exact ⟨by decide, h.2.2.2.1, h.2.1, h2.2.2.2.2.1 h.2.2.2.1⟩

/-- The comparator passed to `data.sort` (src/script.js lines 41-45):
a null recommended mail date sorts last (return 1 / -1), otherwise
`d3.ascending` on the two dates. -/
def sortCmp (a b : Rec) : Int :=
  match a.recommended_mail_date with
  | none => 1
  | some da =>
    match b.recommended_mail_date with
    | none => -1
    | some db => if da < db then -1 else if db < da then 1 else 0

/-- Insert one record into an already-arranged list, placing it before the
first element the comparator does not order it after. -/
def insertCmp (x : Rec) : List Rec → List Rec
  | [] => [x]
  | y :: ys => if sortCmp x y ≤ 0 then x :: y :: ys else y :: insertCmp x ys

/-- `data.sort(comparator)` (src/script.js line 41), modelled as a
comparison sort driven by `sortCmp`. -/
def sortData : List Rec → List Rec
  | [] => []
  | x :: xs => insertCmp x (sortData xs)

/-- Spec-side order: `a` may appear before `b` when `b`'s recommended mail
date is null, or both are non-null and `a`'s is not later. -/
def mayPrecede (a b : Rec) : Prop :=
  match a.recommended_mail_date, b.recommended_mail_date with
  | _, none => True
  | none, some _ => False
  | some da, some db => da ≤ db

theorem mayPrecede_trans {a b c : Rec} (hab : mayPrecede a b) (hbc : mayPrecede b c) :
    mayPrecede a c := by
  unfold mayPrecede at *
  cases ha : a.recommended_mail_date <;> cases hb : b.recommended_mail_date <;>
      cases hc : c.recommended_mail_date <;> simp_all
  omega

theorem mayPrecede_of_cmp_le {a b : Rec} (h : sortCmp a b ≤ 0) : mayPrecede a b := by
  unfold sortCmp at h
  unfold mayPrecede
  cases ha : a.recommended_mail_date <;> cases hb : b.recommended_mail_date <;> simp_all
  split at h
  · omega
  · split at h <;> omega

theorem mayPrecede_of_cmp_pos {a b : Rec} (h : ¬ sortCmp a b ≤ 0) : mayPrecede b a := by
  unfold sortCmp at h
  unfold mayPrecede
  cases ha : a.recommended_mail_date <;> cases hb : b.recommended_mail_date <;> simp_all
  split at h
  · omega
  · split at h <;> omega

theorem insertCmp_perm (x : Rec) (l : List Rec) : (insertCmp x l).Perm (x :: l) := by
  induction l with
  | nil => simp [insertCmp]
  | cons y ys ih =>
    by_cases h : sortCmp x y ≤ 0
    · simp [insertCmp, h]
    · simp only [insertCmp, if_neg h]
      exact (ih.cons y).trans (List.Perm.swap x y ys)

theorem sortData_perm (l : List Rec) : (sortData l).Perm l := by
  induction l with
  | nil => simp [sortData]
  | cons x xs ih =>
    exact ((insertCmp_perm x (sortData xs)).trans (ih.cons x))

theorem insertCmp_pairwise (x : Rec) (l : List Rec)
    (hl : l.Pairwise mayPrecede) : (insertCmp x l).Pairwise mayPrecede := by
  induction l with
  | nil => simp [insertCmp]
  | cons y ys ih =>
    rcases List.pairwise_cons.mp hl with ⟨hy, hys⟩
    by_cases h : sortCmp x y ≤ 0
    · simp only [insertCmp, if_pos h]
      refine List.pairwise_cons.mpr ⟨?_, hl⟩
      intro z hz
      rcases List.mem_cons.mp hz with hz | hz
      · exact hz ▸ mayPrecede_of_cmp_le h
      · exact mayPrecede_trans (mayPrecede_of_cmp_le h) (hy z hz)
    · simp only [insertCmp, if_neg h]
      refine List.pairwise_cons.mpr ⟨?_, ih hys⟩
      intro z hz
      have hz2 : z ∈ x :: ys := (insertCmp_perm x ys).mem_iff.mp hz
      rcases List.mem_cons.mp hz2 with hz2 | hz2
      · exact hz2 ▸ mayPrecede_of_cmp_pos h
      · exact hy z hz2

theorem sortData_pairwise (l : List Rec) : (sortData l).Pairwise mayPrecede := by
  induction l with
  | nil => simp [sortData]
  | cons x xs ih => exact insertCmp_pairwise x (sortData xs) ih

/-- A record with only a recommended mail date, for the C3 example. -/
def mkMailRec (s : String) (d : Option Int) : Rec :=
  { state := s, recommended_mail_date := d, ballot_postmark_deadline := none,
    ballot_receipt_deadline := none, return_methods := "Post" }

/-- C3.  The loader's sort is a permutation of its input in which every
record with a non-null recommended mail date precedes every null-dated
record, non-null dates appear in ascending order, and on the spec's example
[null, 2024-10-01, null, 2024-09-15] it produces
[2024-09-15, 2024-10-01, null, null]. -/
theorem sortData_spec :
    (∀ l : List Rec, (sortData l).Perm l ∧ (sortData l).Pairwise mayPrecede) ∧
    sortData
        [mkMailRec "A" none, mkMailRec "B" (some (toDays 2024 10 1)),
         mkMailRec "C" none, mkMailRec "D" (some (toDays 2024 9 15))] =
      [mkMailRec "D" (some (toDays 2024 9 15)), mkMailRec "B" (some (toDays 2024 10 1)),
       mkMailRec "C" none, mkMailRec "A" none] := by
  constructor
  · intro l
    exact ⟨sortData_perm l, sortData_pairwise l⟩
  · decide

/-- `d3.min(data, d => d.recommended_mail_date ? d.recommended_mail_date :
Infinity)` (src/script.js line 59): a null date is replaced by Infinity, so
it never wins the minimum; `none` here models Infinity (no non-null date at
all), which is the identity of `min`. -/
def jsMinMail (data : List Rec) : Option Int :=
  data.foldr
    (fun d acc =>
      match d.recommended_mail_date, acc with
      | none, a => a
      | some v, none => some v
      | some v, some a => some (min v a))
    none

/-- `d3.max(data, d => d.ballot_receipt_deadline)` (src/script.js line 61):
d3.max skips null values; `none` models the undefined result on no
non-null value. -/
def jsMaxReceipt (data : List Rec) : Option Int :=
  data.foldr
    (fun d acc =>
      match d.ballot_receipt_deadline, acc with
      | none, a => a
      | some v, none => some v
      | some v, some a => some (max v a))
    none

/-- `startDate = d3.timeDay.offset(minDate, -10)` (src/script.js line 60);
offsetting the degenerate Infinity value yields an invalid date, modelled as
`none`. -/
def startDate (data : List Rec) : Option Int :=
  (jsMinMail data).map (fun v => v - 10)

/-- `endDate` (src/script.js line 61). -/
def endDate (data : List Rec) : Option Int :=
  jsMaxReceipt data

/-- The time-scale domain `[startDate, endDate]` (src/script.js lines 64-66). -/
def xDomain (data : List Rec) : Option Int × Option Int :=
  (startDate data, endDate data)

theorem jsMinMail_mem {data : List Rec} {v : Int} (h : jsMinMail data = some v) :
    v ∈ data.filterMap (fun d => d.recommended_mail_date) := by
  induction data with
  | nil => simp [jsMinMail] at h
  | cons d rest ih =>
    simp only [jsMinMail, List.foldr_cons] at h
    rcases hd : d.recommended_mail_date with _ | w <;>
      rcases hr : jsMinMail rest with _ | m <;>
      simp [jsMinMail] at hr <;>
      simp only [hd, hr] at h
    · exact absurd h (by simp)
    · simp only [List.filterMap_cons, hd]
      exact ih (by simp [jsMinMail, hr, h])
    · simp only [Option.some.injEq] at h
      simp [List.filterMap_cons, hd, ← h]
    · simp only [Option.some.injEq] at h
      rcases min_choice w m with hc | hc

      · simp [List.filterMap_cons, hd, ← h, hc]
      · simp only [List.filterMap_cons, hd]
        refine List.mem_cons_of_mem _ (ih ?_)
        simp [jsMinMail, hr, h ▸ hc]

theorem jsMinMail_none {data : List Rec} (h : jsMinMail data = none) :
    data.filterMap (fun d => d.recommended_mail_date) = [] := by
  induction data with
  | nil => simp
  | cons d rest ih =>
    simp only [jsMinMail, List.foldr_cons] at h
    rcases hd : d.recommended_mail_date with _ | u <;>
      rcases hr : jsMinMail rest with _ | m <;>
      simp [jsMinMail] at hr <;>
      simp only [hd, hr] at h
    · simp [List.filterMap_cons, hd, ih (by simp [jsMinMail, hr])]
    · exact absurd h (by simp)
    · exact absurd h (by simp)
    · exact absurd h (by simp)

theorem jsMinMail_le {data : List Rec} {v : Int} (h : jsMinMail data = some v) :
    ∀ w ∈ data.filterMap (fun d => d.recommended_mail_date), v ≤ w := by
  induction data generalizing v with
  | nil => simp
  | cons d rest ih =>
    intro w hw
    simp only [jsMinMail, List.foldr_cons] at h
    rcases hd : d.recommended_mail_date with _ | u <;>
      rcases hr : jsMinMail rest with _ | m <;>
      simp [jsMinMail] at hr <;>
      simp only [hd, hr] at h
    · exact absurd h (by simp)
    · simp only [List.filterMap_cons, hd] at hw
      exact ih (by simp [jsMinMail, hr, h]) w hw
    · simp only [Option.some.injEq] at h
      simp only [List.filterMap_cons, hd, List.mem_cons] at hw
      rcases hw with hw | hw
      · omega
      · rw [jsMinMail_none (by simp [jsMinMail, hr])] at hw
        simp at hw
    · simp only [Option.some.injEq] at h
      simp only [List.filterMap_cons, hd, List.mem_cons] at hw
      rcases hw with hw | hw
      · rw [hw]
        exact le_trans (le_of_eq h.symm) (min_le_left u m)
      · have hm := ih (show jsMinMail rest = some m by simp [jsMinMail, hr]) w hw
        exact le_trans (le_trans (le_of_eq h.symm) (min_le_right u m)) hm

theorem jsMaxReceipt_mem {data : List Rec} {v : Int} (h : jsMaxReceipt data = some v) :
    v ∈ data.filterMap (fun d => d.ballot_receipt_deadline) := by
  induction data with
  | nil => simp [jsMaxReceipt] at h
  | cons d rest ih =>
    simp only [jsMaxReceipt, List.foldr_cons] at h
    rcases hd : d.ballot_receipt_deadline with _ | w <;>
      rcases hr : jsMaxReceipt rest with _ | m <;>
      simp [jsMaxReceipt] at hr <;>
      simp only [hd, hr] at h
    · exact absurd h (by simp)
    · simp only [List.filterMap_cons, hd]
      exact ih (by simp [jsMaxReceipt, hr, h])
    · simp only [Option.some.injEq] at h
      simp [List.filterMap_cons, hd, ← h]
    · simp only [Option.some.injEq] at h
      rcases max_choice w m with hc | hc
      · simp [List.filterMap_cons, hd, ← h, hc]
      · simp only [List.filterMap_cons, hd]
        refine List.mem_cons_of_mem _ (ih ?_)
        simp [jsMaxReceipt, hr, h ▸ hc]

theorem jsMaxReceipt_none {data : List Rec} (h : jsMaxReceipt data = none) :
    data.filterMap (fun d => d.ballot_receipt_deadline) = [] := by
  induction data with
  | nil => simp
  | cons d rest ih =>
    simp only [jsMaxReceipt, List.foldr_cons] at h
    rcases hd : d.ballot_receipt_deadline with _ | u <;>
      rcases hr : jsMaxReceipt rest with _ | m <;>
      simp [jsMaxReceipt] at hr <;>
      simp only [hd, hr] at h
    · simp [List.filterMap_cons, hd, ih (by simp [jsMaxReceipt, hr])]
    · exact absurd h (by simp)
    · exact absurd h (by simp)
    · exact absurd h (by simp)

theorem jsMaxReceipt_ge {data : List Rec} {v : Int} (h : jsMaxReceipt data = some v) :
    ∀ w ∈ data.filterMap (fun d => d.ballot_receipt_deadline), w ≤ v := by
  induction data generalizing v with
  | nil => simp
  | cons d rest ih =>
    intro w hw
    simp only [jsMaxReceipt, List.foldr_cons] at h
    rcases hd : d.ballot_receipt_deadline with _ | u <;>
      rcases hr : jsMaxReceipt rest with _ | m <;>
      simp [jsMaxReceipt] at hr <;>
      simp only [hd, hr] at h
    · exact absurd h (by simp)
    · simp only [List.filterMap_cons, hd] at hw
      exact ih (by simp [jsMaxReceipt, hr, h]) w hw
    · simp only [Option.some.injEq] at h
      simp only [List.filterMap_cons, hd, List.mem_cons] at hw
      rcases hw with hw | hw
      · omega
      · rw [jsMaxReceipt_none (by simp [jsMaxReceipt, hr])] at hw
        simp at hw
    · simp only [Option.some.injEq] at h
      simp only [List.filterMap_cons, hd, List.mem_cons] at hw
      rcases hw with hw | hw
      · rw [hw]
        exact le_trans (le_max_left u m) (le_of_eq h)
      · have hm := ih (show jsMaxReceipt rest = some m by simp [jsMaxReceipt, hr]) w hw
        exact le_trans (le_trans hm (le_max_right u m)) (le_of_eq h)

/-- C4.  Whenever the dataset has at least one non-null recommended mail
date and at least one non-null ballot receipt deadline, the time-axis domain
is `[startDate, endDate]` with `startDate` = (minimum non-null recommended
mail date) − 10 days and `endDate` = maximum non-null ballot receipt
deadline: the produced bounds are attained by some record and bound every
record.  On the spec's example {2024-09-10, 2024-09-20} with max receipt
deadline 2024-11-05 the domain is [2024-08-31, 2024-11-05]. -/
theorem xDomain_spec (data : List Rec)
    (h1 : data.filterMap (fun d => d.recommended_mail_date) ≠ [])
    (h2 : data.filterMap (fun d => d.ballot_receipt_deadline) ≠ []) :
    (∃ m M, xDomain data = (some (m - 10), some M) ∧
      m ∈ data.filterMap (fun d => d.recommended_mail_date) ∧
      (∀ w ∈ data.filterMap (fun d => d.recommended_mail_date), m ≤ w) ∧
      M ∈ data.filterMap (fun d => d.ballot_receipt_deadline) ∧
      (∀ w ∈ data.filterMap (fun d => d.ballot_receipt_deadline), w ≤ M)) ∧
    xDomain
        [{ state := "Georgia", recommended_mail_date := some (toDays 2024 9 10),
           ballot_postmark_deadline := none, ballot_receipt_deadline := none,
           return_methods := "Post" },
         { state := "Ohio", recommended_mail_date := some (toDays 2024 9 20),
           ballot_postmark_deadline := none,
           ballot_receipt_deadline := some (toDays 2024 11 5),
           return_methods := "Post" }] =
      (some (toDays 2024 8 31), some (toDays 2024 11 5)) := by
  constructor
  · rcases hm : jsMinMail data with _ | m
    · exact absurd (jsMinMail_none hm) h1
    · rcases hM : jsMaxReceipt data with _ | M
      · exact absurd (jsMaxReceipt_none hM) h2
      · refine ⟨m, M, ?_, jsMinMail_mem hm, jsMinMail_le hm, jsMaxReceipt_mem hM,
          jsMaxReceipt_ge hM⟩
        simp [xDomain, startDate, endDate, hm, hM]
  · decide

/-- C4 witness: the sample dataset has non-null dates, and the theorem
applied to it produces attained, binding domain endpoints. -/
theorem xDomain_spec_witness :
    sampleData.filterMap (fun d => d.recommended_mail_date) ≠ [] ∧
    sampleData.filterMap (fun d => d.ballot_receipt_deadline) ≠ [] ∧
    ∃ m M, xDomain sampleData = (some (m - 10), some M) ∧
      m ∈ sampleData.filterMap (fun d => d.recommended_mail_date) ∧
      (∀ w ∈ sampleData.filterMap (fun d => d.recommended_mail_date), m ≤ w) ∧
      M ∈ sampleData.filterMap (fun d => d.ballot_receipt_deadline) ∧
      (∀ w ∈ sampleData.filterMap (fun d => d.ballot_receipt_deadline), w ≤ M) := by
  refine ⟨by decide, by decide, ?_⟩
  exact (xDomain_spec sampleData (by decide) (by decide)).1

/-- An SVG `<line>` mark as drawn by `updateChart` (src/script.js lines
156-165). -/
structure LineMark where
  x1 : Int
  x2 : Int
  y1 : Int
  y2 : Int
  stroke : String
deriving Repr, DecidableEq

/-- An SVG `<circle>` mark as drawn by `updateChart` (src/script.js lines
167-198). -/
structure DotMark where
  cx : Int
  cy : Int
  r : Int
  fill : String
deriving Repr, DecidableEq

/-- An element of the chart's DOM.  `line`/`dot` carry the CSS classes
`.line`/`.dot` assigned at creation; `other` stands for any element without
those classes (axes, labels, legend circles). -/
inductive Elem where
  | line (m : LineMark)
  | dot (m : DotMark)
  | other (tag : String)
deriving Repr, DecidableEq

/-- Whether an element is matched by the selector `'.dot, .line'`
(src/script.js line 153). -/
def Elem.isMark : Elem → Bool
  | .line _ => true
  | .dot _ => true
  | .other _ => false

/-- Dot fill for recommended mail dates (src/script.js line 176). -/
def mailFill : String := "#FF6F61"

/-- Dot fill for postmark deadlines (src/script.js line 187). -/
def postmarkFill : String := "#2171B5"

/-- Dot fill for receipt deadlines (src/script.js line 198). -/
def receiptFill : String := "#EF61F7"

/-- `y(d.state) + y.bandwidth() / 2`, the vertical band center used by every
mark (src/script.js lines 163-164, 174, 185, 196). -/
def bandCenter (y : String → Int) (bw : Int) (s : String) : Int :=
  y s + bw / 2

/-- The line drawn for one record, when both of its endpoint dates are
non-null (the truthiness test at src/script.js line 157). -/
def lineOptFor (x : Int → Int) (y : String → Int) (bw : Int) (d : Rec) : Option LineMark :=
  match d.recommended_mail_date, d.ballot_receipt_deadline with
  | some a, some b =>
    some { x1 := x a, x2 := x b, y1 := bandCenter y bw d.state,
           y2 := bandCenter y bw d.state, stroke := "gray" }
  | _, _ => none

/-- The lines series (src/script.js lines 156-165). -/
def renderLines (x : Int → Int) (y : String → Int) (bw : Int) (fd : List Rec) :
    List LineMark :=
  fd.filterMap (lineOptFor x y bw)

/-- The mail-date dot of one record, when present (src/script.js line 169). -/
def mailDotFor (x : Int → Int) (y : String → Int) (bw : Int) (d : Rec) : Option DotMark :=
  d.recommended_mail_date.map fun v =>
    { cx := x v, cy := bandCenter y bw d.state, r := 6, fill := mailFill }

/-- The postmark-deadline dot of one record, when present (src/script.js
line 180). -/
def postmarkDotFor (x : Int → Int) (y : String → Int) (bw : Int) (d : Rec) : Option DotMark :=
  d.ballot_postmark_deadline.map fun v =>
    { cx := x v, cy := bandCenter y bw d.state, r := 6, fill := postmarkFill }

/-- The receipt-deadline dot of one record, when present (src/script.js
line 191). -/
def receiptDotFor (x : Int → Int) (y : String → Int) (bw : Int) (d : Rec) : Option DotMark :=
  d.ballot_receipt_deadline.map fun v =>
    { cx := x v, cy := bandCenter y bw d.state, r := 6, fill := receiptFill }

/-- The three dot series, in DOM append order (src/script.js lines
167-198). -/
def renderDots (x : Int → Int) (y : String → Int) (bw : Int) (fd : List Rec) :
    List DotMark :=
  fd.filterMap (mailDotFor x y bw) ++ fd.filterMap (postmarkDotFor x y bw) ++
    fd.filterMap (receiptDotFor x y bw)

/-- `updateChart(filteredData)` (src/script.js lines 151-200) as a transform
of the chart DOM: remove every `.dot, .line` element, then append the line
series and the three dot series. -/
def updateChart (x : Int → Int) (y : String → Int) (bw : Int)
    (dom : List Elem) (fd : List Rec) : List Elem :=
  dom.filter (fun e => ! e.isMark) ++ (renderLines x y bw fd).map Elem.line ++
    (renderDots x y bw fd).map Elem.dot

/-- Spec-side, per-record regrouping of the marks: the 0-or-1 line of a
record. -/
def lineFor (x : Int → Int) (y : String → Int) (bw : Int) (d : Rec) : List LineMark :=
  (lineOptFor x y bw d).toList

/-- Spec-side, per-record regrouping of the marks: the 0-to-3 dots of a
record. -/
def dotsFor (x : Int → Int) (y : String → Int) (bw : Int) (d : Rec) : List DotMark :=
  (mailDotFor x y bw d).toList ++ (postmarkDotFor x y bw d).toList ++
    (receiptDotFor x y bw d).toList

/-- Spec-side count of non-null date fields of a record. -/
def numDates (d : Rec) : Nat :=
  (if d.recommended_mail_date.isSome then 1 else 0) +
    (if d.ballot_postmark_deadline.isSome then 1 else 0) +
    (if d.ballot_receipt_deadline.isSome then 1 else 0)

theorem renderDots_perm_flatMap (x : Int → Int) (y : String → Int) (bw : Int)
    (fd : List Rec) : (renderDots x y bw fd).Perm (fd.flatMap (dotsFor x y bw)) := by
  unfold renderDots dotsFor
  rw [List.filterMap_eq_flatMap_toList, List.filterMap_eq_flatMap_toList,
    List.filterMap_eq_flatMap_toList]
  exact ((List.flatMap_append_perm fd _ _).append_right _).trans
    (List.flatMap_append_perm fd _ _)

/-- C5.  The marks drawn by `updateChart`, regrouped per record: the line
series equals the concatenation of each record's 0-or-1 line, the dot series
is a permutation of the concatenation of each record's dots; a record with
both endpoint dates contributes exactly the one line whose x-endpoints are
the scale images of the two dates at its band center, a record missing either
date contributes no line, each record contributes exactly as many dots as it
has non-null date fields, and every dot has radius 6, sits at the record's
band center, and its cx is the scale image of one of the record's dates. -/
theorem updateChart_marks (x : Int → Int) (y : String → Int) (bw : Int)
    (fd : List Rec) :
    renderLines x y bw fd = fd.flatMap (lineFor x y bw) ∧
    (renderDots x y bw fd).Perm (fd.flatMap (dotsFor x y bw)) ∧
    (∀ d, (dotsFor x y bw d).length = numDates d) ∧
    (∀ d a b, d.recommended_mail_date = some a → d.ballot_receipt_deadline = some b →
      lineFor x y bw d =
        [{ x1 := x a, x2 := x b, y1 := bandCenter y bw d.state,
           y2 := bandCenter y bw d.state, stroke := "gray" }]) ∧
    (∀ d, d.recommended_mail_date = none ∨ d.ballot_receipt_deadline = none →
      lineFor x y bw d = []) ∧
    (∀ d dm, dm ∈ dotsFor x y bw d → dm.r = 6 ∧ dm.cy = bandCenter y bw d.state ∧
      ∃ v, (d.recommended_mail_date = some v ∨ d.ballot_postmark_deadline = some v ∨
        d.ballot_receipt_deadline = some v) ∧ dm.cx = x v) := by
  refine ⟨?_, renderDots_perm_flatMap x y bw fd, ?_, ?_, ?_, ?_⟩
  · unfold renderLines lineFor
    exact List.filterMap_eq_flatMap_toList _ _
  · intro d
    unfold dotsFor numDates mailDotFor postmarkDotFor receiptDotFor
    rcases d.recommended_mail_date <;> rcases d.ballot_postmark_deadline <;>
      rcases d.ballot_receipt_deadline <;> simp
  · intro d a b ha hb
    simp [lineFor, lineOptFor, ha, hb]
  · intro d h
    rcases h with h | h <;> simp [lineFor, lineOptFor, h]
  · intro d dm hdm
    unfold dotsFor at hdm
    rcases List.mem_append.mp hdm with h1 | h1
    · rcases List.mem_append.mp h1 with h2 | h2
      · rcases Option.map_eq_some'.mp (Option.mem_def.mp (Option.mem_toList.mp h2)) with
          ⟨v, hv, hfe⟩
        subst hfe
        exact ⟨rfl, rfl, v, Or.inl hv, rfl⟩
      · rcases Option.map_eq_some'.mp (Option.mem_def.mp (Option.mem_toList.mp h2)) with
          ⟨v, hv, hfe⟩
        subst hfe
        exact ⟨rfl, rfl, v, Or.inr (Or.inl hv), rfl⟩
    · rcases Option.map_eq_some'.mp (Option.mem_def.mp (Option.mem_toList.mp h1)) with
        ⟨v, hv, hfe⟩
      subst hfe
      exact ⟨rfl, rfl, v, Or.inr (Or.inr hv), rfl⟩

/-- C5 witness: on the sample dataset with identity scales, the regrouped
marks agree; the Georgia record (both dates non-null) contributes exactly one
line with the stated endpoints, the Wisconsin record (receipt date null)
contributes none, and Georgia contributes exactly 2 dots. -/
theorem updateChart_marks_witness :
    (renderDots (fun v => v) (fun _ => 0) 2 sampleData).Perm
      (sampleData.flatMap (dotsFor (fun v => v) (fun _ => 0) 2)) ∧
    lineFor (fun v => v) (fun _ => 0) 2 (sampleData.get ⟨0, by decide⟩) =
      [{ x1 := toDays 2024 9 15, x2 := toDays 2024 11 5, y1 := 1, y2 := 1,
         stroke := "gray" }] ∧
    lineFor (fun v => v) (fun _ => 0) 2 (sampleData.get ⟨2, by decide⟩) = [] ∧
    (dotsFor (fun v => v) (fun _ => 0) 2 (sampleData.get ⟨0, by decide⟩)).length = 2 := by
  have h := updateChart_marks (fun v => v) (fun _ => 0) 2 sampleData
  refine ⟨h.2.1, ?_, ?_, ?_⟩
  · exact h.2.2.2.1 _ (toDays 2024 9 15) (toDays 2024 11 5) (by decide) (by decide)
  · exact h.2.2.2.2.1 _ (Or.inr (by decide))
  · rw [h.2.2.1]
    decide

/-- C6.  `updateChart` first removes every element matching `.dot, .line`,
so the marks present afterwards are exactly the freshly drawn series
regardless of the previous DOM, and rendering twice with the same subset
leaves the DOM identical to rendering once — no duplicate marks. -/
theorem updateChart_idempotent (x : Int → Int) (y : String → Int) (bw : Int)
    (dom : List Elem) (fd : List Rec) :
    updateChart x y bw (updateChart x y bw dom fd) fd = updateChart x y bw dom fd ∧
    (updateChart x y bw dom fd).filter (fun e => e.isMark) =
      (renderLines x y bw fd).map Elem.line ++ (renderDots x y bw fd).map Elem.dot := by
  have hline : ∀ l : List LineMark,
      (l.map Elem.line).filter (fun e => ! e.isMark) = [] := by
    intro l
    induction l with
    | nil => rfl
    | cons a l ih => simp [Elem.isMark, ih]
  have hdot : ∀ l : List DotMark,
      (l.map Elem.dot).filter (fun e => ! e.isMark) = [] := by
    intro l
    induction l with
    | nil => rfl
    | cons a l ih => simp [Elem.isMark, ih]
  have hline2 : ∀ l : List LineMark,
      (l.map Elem.line).filter (fun e => e.isMark) = l.map Elem.line := by
    intro l
    induction l with
    | nil => rfl
    | cons a l ih => simp [Elem.isMark, ih]
  have hdot2 : ∀ l : List DotMark,
      (l.map Elem.dot).filter (fun e => e.isMark) = l.map Elem.dot := by
    intro l
    induction l with
    | nil => rfl
    | cons a l ih => simp [Elem.isMark, ih]
  have hstrip : ∀ l : List Elem,
      (l.filter (fun e => ! e.isMark)).filter (fun e => ! e.isMark) =
        l.filter (fun e => ! e.isMark) := by
    intro l
    rw [List.filter_filter]
    simp
  have hstrip2 : ∀ l : List Elem,
      (l.filter (fun e => ! e.isMark)).filter (fun e => e.isMark) = [] := by
    intro l
    rw [List.filter_filter]
    have : (fun e : Elem => e.isMark && ! e.isMark) = fun e => false := by
      funext e
      cases e.isMark <;> rfl
    simp [this]
  constructor
  · conv_lhs => rw [updateChart]
    rw [show updateChart x y bw dom fd =
        dom.filter (fun e => ! e.isMark) ++ (renderLines x y bw fd).map Elem.line ++
          (renderDots x y bw fd).map Elem.dot from rfl]
    rw [List.filter_append, List.filter_append, hstrip, hline, hdot]
    simp [updateChart]
  · rw [show updateChart x y bw dom fd =
        dom.filter (fun e => ! e.isMark) ++ (renderLines x y bw fd).map Elem.line ++
          (renderDots x y bw fd).map Elem.dot from rfl]
    rw [List.filter_append, List.filter_append, hstrip2, hline2, hdot2]
    simp

/-- List of critical states to highlight in the y-axis (src/script.js lines
11-14). -/
def highlightedStates : List String :=
  ["Pennsylvania", "Georgia", "North Carolina", "Wisconsin", "Michigan",
   "Arizona", "Nevada", "Nebraska", "New Hampshire", "Ohio", "Montana"]

/-- The CSS classes placed on one y-axis tick label by
`styleHighlightedStatesYAxis` (src/script.js lines 274-278): `classed` adds
the class exactly when its predicate holds, so each label carries
`highlighted-tick` iff its state is in `highlightedStates`, and `normal-tick`
iff it is not. -/
def tickClassesOf (s : String) : List String :=
  (if highlightedStates.contains s then ["highlighted-tick"] else []) ++
    (if highlightedStates.contains s then [] else ["normal-tick"])

/-- `new Set(filteredData.map(d => d.state))` (src/script.js line 132): the
distinct values in first-insertion order. -/
def setOfList (l : List String) : List String :=
  l.foldl (fun acc s => if s ∈ acc then acc else acc ++ [s]) []

theorem setOfList_loop_nodup (l acc : List String) (h : acc.Nodup) :
    (l.foldl (fun acc s => if s ∈ acc then acc else acc ++ [s]) acc).Nodup := by
  induction l generalizing acc with
  | nil => exact h
  | cons a l ih =>
    simp only [List.foldl_cons]
    by_cases ha : a ∈ acc
    · rw [if_pos ha]
      exact ih acc h
    · rw [if_neg ha]
      refine ih _ ?_
      simp [List.nodup_append, h, ha]

theorem setOfList_loop_mem (l acc : List String) (s : String) :
    s ∈ l.foldl (fun acc t => if t ∈ acc then acc else acc ++ [t]) acc ↔
      s ∈ acc ∨ s ∈ l := by
  induction l generalizing acc with
  | nil => simp
  | cons a l ih =>
    simp only [List.foldl_cons]
    by_cases ha : a ∈ acc
    · rw [if_pos ha, ih]
      constructor
      · rintro (h | h)
        · exact Or.inl h
        · exact Or.inr (List.mem_cons_of_mem a h)
      · rintro (h | h)
        · exact Or.inl h
        · rcases List.mem_cons.mp h with rfl | h
          · exact Or.inl ha
          · exact Or.inr h
    · rw [if_neg ha, ih]
      simp only [List.mem_append, List.mem_singleton, List.mem_cons]
      tauto

theorem setOfList_nodup (l : List String) : (setOfList l).Nodup :=
  setOfList_loop_nodup l [] List.nodup_nil

theorem setOfList_mem (l : List String) (s : String) : s ∈ setOfList l ↔ s ∈ l := by
  unfold setOfList
  rw [setOfList_loop_mem]
  simp

/-- The page state the `applyFilters` closure touches: the canonical `data`
array, the time scale's domain, the band scale's domain, the classes on the
rendered y-axis tick labels, and the chart DOM. -/
structure AppState where
  data : List Rec
  xDom : Option Int × Option Int
  yDomain : List String
  tickClasses : List (String × List String)
  dom : List Elem

/-- `applyFilters()` (src/script.js lines 117-148): filter the data, collect
the distinct states of the filtered subset, replace the band scale's domain
with them, re-render the y-axis (one styled tick per domain entry via
`styleHighlightedStatesYAxis`), and update the chart marks.  The canonical
data and the time scale are not touched. -/
def applyFiltersState (x : Int → Int) (y : String → Int) (bw : Int)
    (f : Filters) (st : AppState) : AppState :=
  let filteredData := st.data.filter (filterPred f)
  let filteredStates := setOfList (filteredData.map (fun d => d.state))
  { data := st.data
    xDom := st.xDom
    yDomain := filteredStates
    tickClasses := filteredStates.map (fun s => (s, tickClassesOf s))
    dom := updateChart x y bw st.dom filteredData }

/-- C7.  Every rendered y-axis tick label carries exactly one of the two
presentation classes, `highlighted-tick` iff its state is in the fixed
eleven-state list, `normal-tick` otherwise — whatever the current filter
state; in particular "Wisconsin" is always highlighted and "Texas" never
is. -/
theorem tick_highlight_classes (x : Int → Int) (y : String → Int) (bw : Int)
    (f : Filters) (st : AppState) :
    (∀ s cls, (s, cls) ∈ (applyFiltersState x y bw f st).tickClasses →
      (s ∈ highlightedStates → cls = ["highlighted-tick"]) ∧
      (s ∉ highlightedStates → cls = ["normal-tick"])) ∧
    (∀ s, s ∈ highlightedStates ↔ tickClassesOf s = ["highlighted-tick"]) ∧
    (∀ s, s ∉ highlightedStates ↔ tickClassesOf s = ["normal-tick"]) ∧
    tickClassesOf "Wisconsin" = ["highlighted-tick"] ∧
    tickClassesOf "Texas" = ["normal-tick"] := by
  have hcls : ∀ s : String, (s ∈ highlightedStates → tickClassesOf s = ["highlighted-tick"]) ∧
      (s ∉ highlightedStates → tickClassesOf s = ["normal-tick"]) := by
    intro s
    unfold tickClassesOf
    by_cases h : s ∈ highlightedStates
    · rw [if_pos (List.elem_iff.mpr h), if_pos (List.elem_iff.mpr h)]
      exact ⟨fun _ => rfl, fun hn => absurd h hn⟩
    · rw [if_neg (fun hc => h (List.elem_iff.mp hc)),
        if_neg (fun hc => h (List.elem_iff.mp hc))]
      exact ⟨fun hm => absurd hm h, fun _ => rfl⟩
  refine ⟨?_, ?_, ?_, (hcls "Wisconsin").1 (by decide), (hcls "Texas").2 (by decide)⟩
  · intro s cls hmem
    have : cls = tickClassesOf s := by
      simp only [applyFiltersState, List.mem_map] at hmem
      rcases hmem with ⟨t, _, ht⟩
      rcases Prod.mk.injEq .. ▸ ht with ⟨rfl, rfl⟩
      rfl
    rw [this]
    exact hcls s
  · intro s
    constructor
    · exact (hcls s).1
    · intro he
      by_contra h
      rw [(hcls s).2 h] at he
      exact absurd (List.cons.injEq .. ▸ he).1 (by decide)
  · intro s
    constructor
    · exact (hcls s).2
    · intro he
      by_contra h
      rw [(hcls s).1 h] at he
      exact absurd (List.cons.injEq .. ▸ he).1 (by decide)

/-- C7 witness: in the concretely applied state (all-mode over the sample
data) the tick for "Wisconsin" is present and the theorem assigns it the
highlighted class, and "Texas"'s tick gets the normal class. -/
theorem tick_highlight_classes_witness :
    (("Wisconsin", tickClassesOf "Wisconsin") ∈
      (applyFiltersState (fun v => v) (fun _ => 0) 2
        { all := true, post := false, postElectronic := false }
        { data := sampleData, xDom := xDomain sampleData, yDomain := [],
          tickClasses := [], dom := [] }).tickClasses) ∧
    tickClassesOf "Wisconsin" = ["highlighted-tick"] ∧
    tickClassesOf "Texas" = ["normal-tick"] := by
  have h := tick_highlight_classes (fun v => v) (fun _ => 0) 2
    { all := true, post := false, postElectronic := false }
    { data := sampleData, xDom := xDomain sampleData, yDomain := [],
      tickClasses := [], dom := [] }
  refine ⟨by decide, ?_, ?_⟩
  · exact ((h.1 "Wisconsin" (tickClassesOf "Wisconsin") (by decide)).1) (by decide)
  · exact ((h.1 "Texas" (tickClassesOf "Texas") (by decide)).2) (by decide)

/-- C8.  `applyFilters` leaves the canonical record collection and the time
scale's domain unchanged; of the scale state it mutates only the band
scale's categorical domain, which becomes exactly the set of distinct state
values of the filtered subset (no duplicates, containing a state iff some
filtered record has it). -/
theorem applyFilters_frame (x : Int → Int) (y : String → Int) (bw : Int)
    (f : Filters) (st : AppState) :
    (applyFiltersState x y bw f st).data = st.data ∧
    (applyFiltersState x y bw f st).xDom = st.xDom ∧
    (applyFiltersState x y bw f st).yDomain.Nodup ∧
    (∀ s, s ∈ (applyFiltersState x y bw f st).yDomain ↔
      s ∈ (applyFiltersData f st.data).map (fun d => d.state)) := by
  refine ⟨rfl, rfl, setOfList_nodup _, ?_⟩
  intro s
  exact setOfList_mem _ s

/-- Days in a Gregorian month. -/
def daysInMonth (y m : Nat) : Nat :=
  if m = 2 then (if (y % 4 = 0 ∧ y % 100 ≠ 0) ∨ y % 400 = 0 then 29 else 28)
  else if m = 4 ∨ m = 6 ∨ m = 9 ∨ m = 11 then 30 else 31

/-- Split a character list on the slash separator. -/
def splitSlash : List Char → List (List Char)
  | [] => [[]]
  | c :: cs =>
    let r := splitSlash cs
    if c = '/' then [] :: r
    else
      match r with
      | [] => [[c]]
      | g :: gs => (c :: g) :: gs

/-- Read a non-empty all-digit character group as a number. -/
def natOfDigits (cs : List Char) : Option Nat :=
  if cs ≠ [] ∧ cs.all (fun c => c.isDigit) then
    some (cs.foldl (fun n c => 10 * n + (c.toNat - 48)) 0)
  else none

/-- Modelled from the spec: `d3.timeParse('%m/%d/%Y')` (src/script.js line
25) is library code not present in the repository.  Per the spec (§4.1, §6) a
conforming cell is "month/day/4-digit-year" such as "11/05/2024"; a
conforming string parses to its date, and any non-conforming string yields
null (`none`) — no exception is raised. -/
def timeParse (s : String) : Option Int :=
  match splitSlash s.data with
  | [ms, ds, ys] =>
    match natOfDigits ms, natOfDigits ds, natOfDigits ys with
    | some m, some d, some y =>
      if 1 ≤ m ∧ m ≤ 12 ∧ 1 ≤ d ∧ d ≤ daysInMonth y m ∧ ys.length = 4 then
        some (toDays y m d)
      else none
    | _, _, _ => none
  | _ => none

/-- One date cell of the row accessor (src/script.js lines 26-28):
`cell === "N/A" ? null : parseDate(cell)`. -/
def parseDateCell (s : String) : Option Int :=
  if s = "N/A" then none else timeParse s

/-- One raw CSV row, all cells strings (the argument of the row accessor at
src/script.js line 24). -/
structure RawRow where
  state : String
  recommendedMailDateCell : String
  postmarkDeadlineCell : String
  receiptDeadlineCell : String
  returnMethodsCell : String
deriving Repr, DecidableEq

/-- The row accessor passed to `d3.csv` (src/script.js lines 24-37). -/
def rowAccessor (r : RawRow) : Rec :=
  { state := r.state
    recommended_mail_date := parseDateCell r.recommendedMailDateCell
    ballot_postmark_deadline := parseDateCell r.postmarkDeadlineCell
    ballot_receipt_deadline := parseDateCell r.receiptDeadlineCell
    return_methods := r.returnMethodsCell }

/-- C9.  A date cell that is neither the "N/A" sentinel nor a conforming
%m/%d/%Y string parses to null with no error: the resulting record has a null
date field and is indistinguishable from the record parsed from the same row
with that cell replaced by "N/A". -/
theorem malformed_date_cell_null (r : RawRow) :
    (r.recommendedMailDateCell ≠ "N/A" → timeParse r.recommendedMailDateCell = none →
      (rowAccessor r).recommended_mail_date = none ∧
      rowAccessor r = rowAccessor { r with recommendedMailDateCell := "N/A" }) ∧
    (r.postmarkDeadlineCell ≠ "N/A" → timeParse r.postmarkDeadlineCell = none →
      (rowAccessor r).ballot_postmark_deadline = none ∧
      rowAccessor r = rowAccessor { r with postmarkDeadlineCell := "N/A" }) ∧
    (r.receiptDeadlineCell ≠ "N/A" → timeParse r.receiptDeadlineCell = none →
      (rowAccessor r).ballot_receipt_deadline = none ∧
      rowAccessor r = rowAccessor { r with receiptDeadlineCell := "N/A" }) := by
  refine ⟨?_, ?_, ?_⟩ <;>
    intro hne hbad <;>
    constructor <;>
    simp [rowAccessor, parseDateCell, hne, hbad]

/-- A raw row with a malformed mail-date cell, for the C9 witness. -/
def malformedRow : RawRow :=
  { state := "Texas", recommendedMailDateCell := "hello",
    postmarkDeadlineCell := "13/45/2024", receiptDeadlineCell := "11/05/2024",
    returnMethodsCell := "Post" }

/-- The same raw row with the malformed cell replaced by the sentinel. -/
def malformedRowNA : RawRow :=
  { state := "Texas", recommendedMailDateCell := "N/A",
    postmarkDeadlineCell := "13/45/2024", receiptDeadlineCell := "11/05/2024",
    returnMethodsCell := "Post" }

/-- C9 witness: the malformed cells "hello" (not a date shape) and
"13/45/2024" (month 13, day 45) parse to null, and a row containing them is
indistinguishable from the same row with "N/A" cells; a conforming cell
"11/05/2024" does parse. -/
theorem malformed_date_cell_null_witness :
    ("hello" : String) ≠ "N/A" ∧ timeParse "hello" = none ∧
    ("13/45/2024" : String) ≠ "N/A" ∧ timeParse "13/45/2024" = none ∧
    (rowAccessor malformedRow).recommended_mail_date = none ∧
    rowAccessor malformedRow = rowAccessor malformedRowNA ∧
    timeParse "11/05/2024" = some (toDays 2024 11 5) := by
  have h := (malformed_date_cell_null malformedRow).1 (by decide) (by decide)
  refine ⟨by decide, by decide, by decide, by decide, h.1, ?_, by decide⟩
  have h2 := h.2
  unfold malformedRow at h2 ⊢
  unfold malformedRowNA
  exact h2

/-- The legend's fixed labels and colors (src/script.js lines 207-211). -/
def legendData : List (String × String) :=
  [("Recommended Mail Date", "#FF5733"),
   ("Ballot Postmark Deadline", "#3F78E7"),
   ("Ballot Receipt Deadline", "#EF61F7")]

/-- C10.  The legend colors disagree with the dot fills for the first two
entries and agree for the third: every mail-date dot is filled "#FF6F61"
while the legend shows "#FF5733", every postmark dot is filled "#2171B5"
while the legend shows "#3F78E7", and every receipt dot is filled "#EF61F7",
equal to its legend entry. -/
theorem legend_colors_vs_dot_fills :
    (∀ (x : Int → Int) (y : String → Int) (bw : Int) (d : Rec) (dm : DotMark),
      mailDotFor x y bw d = some dm → dm.fill = mailFill) ∧
    (∀ (x : Int → Int) (y : String → Int) (bw : Int) (d : Rec) (dm : DotMark),
      postmarkDotFor x y bw d = some dm → dm.fill = postmarkFill) ∧
    (∀ (x : Int → Int) (y : String → Int) (bw : Int) (d : Rec) (dm : DotMark),
      receiptDotFor x y bw d = some dm → dm.fill = receiptFill) ∧
    (legendData.get ⟨0, by decide⟩).2 = "#FF5733" ∧ mailFill = "#FF6F61" ∧
    (legendData.get ⟨0, by decide⟩).2 ≠ mailFill ∧
    (legendData.get ⟨1, by decide⟩).2 = "#3F78E7" ∧ postmarkFill = "#2171B5" ∧
    (legendData.get ⟨1, by decide⟩).2 ≠ postmarkFill ∧
    (legendData.get ⟨2, by decide⟩).2 = receiptFill := by
  refine ⟨?_, ?_, ?_, rfl, rfl, by decide, rfl, rfl, by decide, rfl⟩ <;>
    intro x y bw d dm h <;>
    [unfold mailDotFor at h; unfold postmarkDotFor at h; unfold receiptDotFor at h] <;>
    rcases Option.map_eq_some'.mp h with ⟨v, _, hfe⟩ <;>
    rw [← hfe]

/-- C10 witness: the Georgia sample record's mail dot is filled "#FF6F61",
which differs from the legend's "#FF5733". -/
theorem legend_colors_vs_dot_fills_witness :
    (∃ dm, mailDotFor (fun v => v) (fun _ => 0) 2 (sampleData.get ⟨0, by decide⟩) =
      some dm ∧ dm.fill = mailFill) ∧
    (legendData.get ⟨0, by decide⟩).2 ≠ mailFill := by
  have h := legend_colors_vs_dot_fills
  refine ⟨⟨{ cx := toDays 2024 9 15, cy := 1, r := 6, fill := mailFill }, ?_, ?_⟩,
    h.2.2.2.2.2.1⟩
  · decide
  · exact h.1 (fun v => v) (fun _ => 0) 2 (sampleData.get ⟨0, by decide⟩) _ (by decide)

end UocavaViz
